import Mathlib

/-!
Shallow embedding of `src/libgit2-sys/emscripten-transport/emscriptenhttp-async.c`:
an emscripten (browser-hosted) HTTP subtransport for libgit2's smart protocol.

The C module talks to the host JavaScript runtime through four primitives
(`emscriptenhttpconnect` for GET, `emscriptenhttpconnect` with POST headers,
`emscriptenhttpread`, `emscriptenhttpwrite`).  Host behaviour is modelled by a
`HostEnv` record of functions, and each embedded operation additionally returns
the list of host calls it performed (a trace), so that "opened exactly once",
"no host primitive is invoked", etc. are statable.
-/

/-- Host-provided primitives, as the C module sees them.  `doGet url bufSize`
and `doPost url bufSize` return a connection handle (an `int` in C);
`doRead conn bufSize` returns the number of bytes copied or a negative error;
`doWrite conn len` returns a value that the C code discards (`EM_ASM`). -/
structure HostEnv where
  doGet : String → Nat → Int
  doPost : String → Nat → Int
  doRead : Int → Nat → Int
  doWrite : Int → Nat → Int

/-- One observable primitive call made by the module.  `get`/`post` are the
connection-opening calls (`emscriptenhttp_do_get` / `emscriptenhttp_do_post`,
the latter carrying the Content-Type header it builds); `read`/`write` are the
byte-level calls; `freeMem` records a `git__free` of the named object. -/
inductive HostCall where
  | get (url : String) (bufSize : Nat)
  | post (url : String) (bufSize : Nat) (contentType : String)
  | read (conn : Int) (bufSize : Nat)
  | write (conn : Int) (len : Nat)
  | freeMem (obj : String)
deriving DecidableEq, Repr

/-- `#define DEFAULT_BUFSIZE 65536` -/
def DEFAULT_BUFSIZE : Nat := 65536

/-- `emscriptenhttp_stream`: the per-action stream state (function-pointer
parent fields omitted; they carry no data). -/
structure emscriptenhttp_stream where
  service_url : String
  connectionNo : Int
deriving DecidableEq, Repr

/-- `emscriptenhttp_subtransport`: holds only the owning smart-transport
pointer, modelled as an opaque integer. -/
structure emscriptenhttp_subtransport where
  owner : Int
deriving DecidableEq, Repr

/-- JavaScript `String.prototype.indexOf` helper: first index `≥ i` at which
`pat` occurs in `s`, else `-1`.  Mirrors the scan JS performs. -/
def jsIndexOfAux (pat : List Char) : List Char → Nat → Int
  | [], i => if pat.isPrefixOf [] then (i : Int) else -1
  | c :: rest, i =>
    if pat.isPrefixOf (c :: rest) then (i : Int) else jsIndexOfAux pat rest (i + 1)

/-- JavaScript `s.indexOf(pat)`: index of the first occurrence, or `-1`. -/
def jsIndexOf (s pat : String) : Int :=
  jsIndexOfAux pat.data s.data 0

/-- `emscriptenhttp_do_get`: asks the host to open a GET connection; returns
the handle and the trace event. -/
def emscriptenhttp_do_get (e : HostEnv) (url : String) (buf_size : Nat) :
    Int × HostCall :=
  (e.doGet url buf_size, HostCall.get url buf_size)

/-- `emscriptenhttp_do_post`: asks the host to open a POST connection.  The
Content-Type header is chosen inside the JS body by
`urlString.indexOf('git-upload-pack') > 0 ? 'application/x-git-upload-pack-request'
: 'application/x-git-receive-pack-request'`. -/
def emscriptenhttp_do_post (e : HostEnv) (url : String) (buf_size : Nat) :
    Int × HostCall :=
  (e.doPost url buf_size,
   HostCall.post url buf_size
     (if 0 < jsIndexOf url "git-upload-pack" then
        "application/x-git-upload-pack-request"
      else
        "application/x-git-receive-pack-request"))

/-- Result of `emscriptenhttp_stream_read`: the C return value, the updated
stream, the value stored through `*bytes_read` (`none` when the out-parameter
is left unwritten), the message passed to `git_error_set` (if any), and the
host calls performed. -/
structure ReadResult where
  retval : Int
  stream : emscriptenhttp_stream
  bytesRead : Option Nat
  errorSet : Option String
  calls : List HostCall
deriving DecidableEq, Repr

/-- Result of `emscriptenhttp_stream_write_single`: the C return value, the
updated stream, the message passed to `git_error_set` (never set by the C
code), and the host calls performed. -/
structure WriteResult where
  retval : Int
  stream : emscriptenhttp_stream
  errorSet : Option String
  calls : List HostCall
deriving DecidableEq, Repr

/-- `emscriptenhttp_stream_read`: opens a GET connection if
`s->connectionNo == -1`, then reads; a negative host result sets the error
"request aborted by user" and returns `-1` without touching `*bytes_read`,
otherwise `*bytes_read` receives the count and `0` is returned. -/
def emscriptenhttp_stream_read (e : HostEnv) (s : emscriptenhttp_stream)
    (buf_size : Nat) : ReadResult :=
  let opened : emscriptenhttp_stream × List HostCall :=
    if s.connectionNo = -1 then
      ({ s with connectionNo := (emscriptenhttp_do_get e s.service_url DEFAULT_BUFSIZE).1 },
       [(emscriptenhttp_do_get e s.service_url DEFAULT_BUFSIZE).2])
    else
      (s, [])
  let s1 := opened.1
  let rd := e.doRead s1.connectionNo buf_size
  let calls := opened.2 ++ [HostCall.read s1.connectionNo buf_size]
  if rd < 0 then
    { retval := -1, stream := s1, bytesRead := none,
      errorSet := some "request aborted by user", calls := calls }
  else
    { retval := 0, stream := s1, bytesRead := some rd.toNat,
      errorSet := none, calls := calls }

/-- `emscriptenhttp_stream_write_single`: opens a POST connection if
`s->connectionNo == -1`, then issues the host write (whose return value the
`EM_ASM` block discards) and returns `0` unconditionally. -/
def emscriptenhttp_stream_write_single (e : HostEnv) (s : emscriptenhttp_stream)
    (len : Nat) : WriteResult :=
  let opened : emscriptenhttp_stream × List HostCall :=
    if s.connectionNo = -1 then
      ({ s with connectionNo := (emscriptenhttp_do_post e s.service_url DEFAULT_BUFSIZE).1 },
       [(emscriptenhttp_do_post e s.service_url DEFAULT_BUFSIZE).2])
    else
      (s, [])
  let s1 := opened.1
  let _ := e.doWrite s1.connectionNo len
  { retval := 0, stream := s1, errorSet := none,
    calls := opened.2 ++ [HostCall.write s1.connectionNo len] }

/-- `emscriptenhttp_stream_free`: the body is just `git__free(s)`. -/
def emscriptenhttp_stream_free (_ : emscriptenhttp_stream) : List HostCall :=
  [HostCall.freeMem "emscriptenhttp_stream"]

/-- The four fixed service-URL suffixes (file-scope constants in the C). -/
def upload_pack_ls_service_url : String := "/info/refs?service=git-upload-pack"

/-- Suffix for the upload-pack action. -/
def upload_pack_service_url : String := "/git-upload-pack"

/-- Suffix for the receive-pack listing action. -/
def receive_pack_ls_service_url : String := "/info/refs?service=git-receive-pack"

/-- Suffix for the receive-pack action. -/
def receive_pack_service_url : String := "/git-receive-pack"

/-- Modelled from the spec: the `git_smart_service_t` enum of the surrounding
smart-protocol driver (its header is not part of the sources here).  The spec
names exactly four protocol actions; libgit2 numbers them 1-4.  Actions are
embedded as the enum's underlying integer so that values outside the four
named ones are representable. -/
def GIT_SERVICE_UPLOADPACK_LS : Nat := 1

/-- Modelled from the spec: the upload-pack action tag. -/
def GIT_SERVICE_UPLOADPACK : Nat := 2

/-- Modelled from the spec: the receive-pack listing action tag. -/
def GIT_SERVICE_RECEIVEPACK_LS : Nat := 3

/-- Modelled from the spec: the receive-pack action tag. -/
def GIT_SERVICE_RECEIVEPACK : Nat := 4

/-- `emscriptenhttp_stream_alloc`: `git__calloc` zeroes the record, then the
read/write/free slots are filled and `connectionNo` is set to the `-1`
sentinel.  The zeroed `service_url` is modelled as the empty string. -/
def emscriptenhttp_stream_alloc : emscriptenhttp_stream :=
  { service_url := "", connectionNo := -1 }

/-- `emscriptenhttp_action`: allocates a fresh stream, then builds the service
URL with a four-way `switch` on the action (`git_str_printf("%s%s", url,
suffix)`); an action outside the four cases leaves the `git_str` empty, whose
C string is `""`.  Returns the C return value and the stream. -/
def emscriptenhttp_action (url : String) (action : Nat) :
    Int × emscriptenhttp_stream :=
  let s := emscriptenhttp_stream_alloc
  let buf : String :=
    if action = GIT_SERVICE_UPLOADPACK_LS then url ++ upload_pack_ls_service_url
    else if action = GIT_SERVICE_UPLOADPACK then url ++ upload_pack_service_url
    else if action = GIT_SERVICE_RECEIVEPACK_LS then url ++ receive_pack_ls_service_url
    else if action = GIT_SERVICE_RECEIVEPACK then url ++ receive_pack_service_url
    else ""
  (0, { s with service_url := buf })

/-- `emscriptenhttp_close`: the body is `return 0;` — no state change, no host
calls. -/
def emscriptenhttp_close (t : emscriptenhttp_subtransport) :
    Int × emscriptenhttp_subtransport × List HostCall :=
  (0, t, [])

/-- `emscriptenhttp_free`: calls `emscriptenhttp_close` then `git__free(t)`. -/
def emscriptenhttp_free (t : emscriptenhttp_subtransport) : List HostCall :=
  (emscriptenhttp_close t).2.2 ++ [HostCall.freeMem "emscriptenhttp_subtransport"]

/-- A caller-visible stream operation: a read with the given buffer capacity,
or a write of the given length. -/
inductive Op where
  | read (buf_size : Nat)
  | write (len : Nat)
deriving DecidableEq, Repr

/-- Run a sequence of stream operations, collecting the final stream state and
the concatenated host-call trace. -/
def runOps (e : HostEnv) : emscriptenhttp_stream → List Op →
    emscriptenhttp_stream × List HostCall
  | s, [] => (s, [])
  | s, Op.read n :: rest =>
    let r := emscriptenhttp_stream_read e s n
    let t := runOps e r.stream rest
    (t.1, r.calls ++ t.2)
  | s, Op.write n :: rest =>
    let r := emscriptenhttp_stream_write_single e s n
    let t := runOps e r.stream rest
    (t.1, r.calls ++ t.2)

/-- Is this host call a connection-opening call (GET or POST)? -/
def isOpenCall : HostCall → Bool
  | HostCall.get _ _ => true
  | HostCall.post _ _ _ => true
  | _ => false

/-- Is this host call the GET open? -/
def isGetCall : HostCall → Bool
  | HostCall.get _ _ => true
  | _ => false

/-- Is this host call the POST open? -/
def isPostCall : HostCall → Bool
  | HostCall.post _ _ _ => true
  | _ => false

/-- Is this a call into a host primitive at all (as opposed to a pure memory
release)? -/
def isHostPrimitive : HostCall → Bool
  | HostCall.freeMem _ => false
  | _ => true

/-- The connection handle a byte-level host call uses, if it is one. -/
def callConn : HostCall → Option Int
  | HostCall.read c _ => some c
  | HostCall.write c _ => some c
  | _ => none

/-- The connection handle the read path uses on this call: the existing one,
or the one a fresh GET would return. -/
def effectiveConn (e : HostEnv) (s : emscriptenhttp_stream) : Int :=
  if s.connectionNo = -1 then e.doGet s.service_url DEFAULT_BUFSIZE
  else s.connectionNo

/-- The handle the first operation of a sequence obtains (GET handle if it is
a read, POST handle if it is a write), for an unopened stream. -/
def firstHandle (e : HostEnv) (s : emscriptenhttp_stream) : Op → Int
  | Op.read _ => e.doGet s.service_url DEFAULT_BUFSIZE
  | Op.write _ => e.doPost s.service_url DEFAULT_BUFSIZE

/-- Is the operation a read? -/
def isReadOp : Op → Bool
  | Op.read _ => true
  | Op.write _ => false

/-- A host environment used to instantiate universally quantified theorems at
a concrete point: GET handles are `5`, POST handles are `6`, reads deliver
`3` bytes, writes are acknowledged with `0`. -/
def envOk : HostEnv :=
  { doGet := fun _ _ => 5, doPost := fun _ _ => 6,
    doRead := fun _ _ => 3, doWrite := fun _ _ => 0 }

/-- A host environment whose read primitive always reports the negative
(abort) result. -/
def envAbort : HostEnv :=
  { doGet := fun _ _ => 5, doPost := fun _ _ => 6,
    doRead := fun _ _ => -1, doWrite := fun _ _ => 0 }

/-- A concrete unopened stream bound to an ordinary service URL. -/
def streamUp : emscriptenhttp_stream :=
  { service_url := "http://h/repo/git-upload-pack", connectionNo := -1 }

/-! ### Helper lemmas about single read/write steps -/

theorem stream_read_of_opened (e : HostEnv) (s : emscriptenhttp_stream) (n : Nat)
    (h : s.connectionNo ≠ -1) :
    (emscriptenhttp_stream_read e s n).stream = s ∧
    (emscriptenhttp_stream_read e s n).calls = [HostCall.read s.connectionNo n] := by
  unfold emscriptenhttp_stream_read
  simp only [ if_neg h]
  split <;> exact ⟨rfl, rfl⟩

theorem stream_write_of_opened (e : HostEnv) (s : emscriptenhttp_stream) (len : Nat)
    (h : s.connectionNo ≠ -1) :
    (emscriptenhttp_stream_write_single e s len).stream = s ∧
    (emscriptenhttp_stream_write_single e s len).calls = [HostCall.write s.connectionNo len] := by
  unfold emscriptenhttp_stream_write_single
  rw [if_neg h]
  exact ⟨rfl, rfl⟩

theorem stream_read_of_sentinel (e : HostEnv) (s : emscriptenhttp_stream) (n : Nat)
    (h : s.connectionNo = -1) :
    (emscriptenhttp_stream_read e s n).stream =
      { s with connectionNo := e.doGet s.service_url DEFAULT_BUFSIZE } ∧
    (emscriptenhttp_stream_read e s n).calls =
      [HostCall.get s.service_url DEFAULT_BUFSIZE,
       HostCall.read (e.doGet s.service_url DEFAULT_BUFSIZE) n] := by
  unfold emscriptenhttp_stream_read emscriptenhttp_do_get
  simp only [ if_pos h]
  split <;> exact ⟨rfl, rfl⟩

theorem stream_write_of_sentinel (e : HostEnv) (s : emscriptenhttp_stream) (len : Nat)
    (h : s.connectionNo = -1) :
    (emscriptenhttp_stream_write_single e s len).stream =
      { s with connectionNo := e.doPost s.service_url DEFAULT_BUFSIZE } ∧
    (emscriptenhttp_stream_write_single e s len).calls =
      [HostCall.post s.service_url DEFAULT_BUFSIZE
        (if 0 < jsIndexOf s.service_url "git-upload-pack" then
          "application/x-git-upload-pack-request"
        else
          "application/x-git-receive-pack-request"),
       HostCall.write (e.doPost s.service_url DEFAULT_BUFSIZE) len] := by
  unfold emscriptenhttp_stream_write_single emscriptenhttp_do_post
  rw [if_pos h]
  exact ⟨rfl, rfl⟩

theorem stream_read_result (e : HostEnv) (s : emscriptenhttp_stream) (n : Nat) :
    (emscriptenhttp_stream_read e s n).retval =
      (if e.doRead (effectiveConn e s) n < 0 then -1 else 0) ∧
    (emscriptenhttp_stream_read e s n).bytesRead =
      (if e.doRead (effectiveConn e s) n < 0 then none
       else some (e.doRead (effectiveConn e s) n).toNat) ∧
    (emscriptenhttp_stream_read e s n).errorSet =
      (if e.doRead (effectiveConn e s) n < 0 then some "request aborted by user" else none) := by
  unfold emscriptenhttp_stream_read effectiveConn emscriptenhttp_do_get
  by_cases h : s.connectionNo = -1 <;>
    simp only [ if_pos, if_neg, h, ite_true, ite_false, reduceIte] <;>
    split <;> exact ⟨rfl, rfl, rfl⟩

theorem runOps_nil (e : HostEnv) (s : emscriptenhttp_stream) :
    runOps e s [] = (s, []) := rfl

theorem runOps_cons_read (e : HostEnv) (s : emscriptenhttp_stream) (n : Nat) (rest : List Op) :
    runOps e s (Op.read n :: rest) =
      ((runOps e (emscriptenhttp_stream_read e s n).stream rest).1,
       (emscriptenhttp_stream_read e s n).calls ++
         (runOps e (emscriptenhttp_stream_read e s n).stream rest).2) := rfl

theorem runOps_cons_write (e : HostEnv) (s : emscriptenhttp_stream) (n : Nat) (rest : List Op) :
    runOps e s (Op.write n :: rest) =
      ((runOps e (emscriptenhttp_stream_write_single e s n).stream rest).1,
       (emscriptenhttp_stream_write_single e s n).calls ++
         (runOps e (emscriptenhttp_stream_write_single e s n).stream rest).2) := rfl

/-- Once the connection handle is set (not the `-1` sentinel), any further
sequence of reads and writes leaves the stream unchanged and performs no
connection-opening host call; every byte-level call reuses the stored
handle. -/
theorem runOps_steady (e : HostEnv) (ops : List Op) :
    ∀ s : emscriptenhttp_stream, s.connectionNo ≠ -1 →
      (runOps e s ops).1 = s ∧
      ∀ c ∈ (runOps e s ops).2, isOpenCall c = false ∧ callConn c = some s.connectionNo := by
  induction ops with
  | nil =>
    intro s _
    exact ⟨rfl, by intro c hc; simp [runOps_nil] at hc⟩
  | cons op rest ih =>
    intro s h
    cases op with
    | read n =>
      have hstep := stream_read_of_opened e s n h
      rw [runOps_cons_read, hstep.1, hstep.2]
      refine ⟨(ih s h).1, ?_⟩
      intro c hc
      rcases List.mem_append.1 hc with hc | hc
      · rcases List.mem_singleton.1 hc with rfl
        exact ⟨rfl, rfl⟩
      · exact (ih s h).2 c hc
    | write n =>
      have hstep := stream_write_of_opened e s n h
      rw [runOps_cons_write, hstep.1, hstep.2]
      refine ⟨(ih s h).1, ?_⟩
      intro c hc
      rcases List.mem_append.1 hc with hc | hc
      · rcases List.mem_singleton.1 hc with rfl
        exact ⟨rfl, rfl⟩
      · exact (ih s h).2 c hc

/-! ### Claim theorems -/

/-- Claim C1: for every base URL, each of the four service actions succeeds
and produces a stream whose service URL is the base URL concatenated with
exactly the corresponding fixed suffix: `/info/refs?service=git-upload-pack`,
`/git-upload-pack`, `/info/refs?service=git-receive-pack`,
`/git-receive-pack`. -/
theorem action_builds_exact_service_urls (url : String) :
    (emscriptenhttp_action url GIT_SERVICE_UPLOADPACK_LS).1 = 0 ∧
    (emscriptenhttp_action url GIT_SERVICE_UPLOADPACK_LS).2.service_url =
      url ++ "/info/refs?service=git-upload-pack" ∧
    (emscriptenhttp_action url GIT_SERVICE_UPLOADPACK).1 = 0 ∧
    (emscriptenhttp_action url GIT_SERVICE_UPLOADPACK).2.service_url =
      url ++ "/git-upload-pack" ∧
    (emscriptenhttp_action url GIT_SERVICE_RECEIVEPACK_LS).1 = 0 ∧
    (emscriptenhttp_action url GIT_SERVICE_RECEIVEPACK_LS).2.service_url =
      url ++ "/info/refs?service=git-receive-pack" ∧
    (emscriptenhttp_action url GIT_SERVICE_RECEIVEPACK).1 = 0 ∧
    (emscriptenhttp_action url GIT_SERVICE_RECEIVEPACK).2.service_url =
      url ++ "/git-receive-pack" :=
  ⟨rfl, rfl, rfl, rfl, rfl, rfl, rfl, rfl⟩

/-- Claim C2: a negative host read result makes the read fail with exit code
`-1`, the error message "request aborted by user", and no value written to
the caller's `bytes_read` out-parameter; moreover this is the only error the
read path can ever set. -/
theorem negative_host_read_aborts (e : HostEnv) (s : emscriptenhttp_stream) (n : Nat)
    (h : e.doRead (effectiveConn e s) n < 0) :
    (emscriptenhttp_stream_read e s n).retval = -1 ∧
    (emscriptenhttp_stream_read e s n).bytesRead = none ∧
    (emscriptenhttp_stream_read e s n).errorSet = some "request aborted by user" ∧
    ∀ (e' : HostEnv) (s' : emscriptenhttp_stream) (n' : Nat),
      (emscriptenhttp_stream_read e' s' n').errorSet = none ∨
      (emscriptenhttp_stream_read e' s' n').errorSet = some "request aborted by user" := by
  obtain ⟨h1, h2, h3⟩ := stream_read_result e s n
  rw [h1, h2, h3, if_pos h, if_pos h, if_pos h]
  refine ⟨rfl, rfl, rfl, ?_⟩
  intro e' s' n'
  obtain ⟨-, -, h3'⟩ := stream_read_result e' s' n'
  rw [h3']
  by_cases h' : e'.doRead (effectiveConn e' s') n' < 0
  · exact Or.inr (by rw [if_pos h'])
  · exact Or.inl (by rw [if_neg h'])

/-- Witness for C2: a concrete host whose read primitive reports `-1`. -/
theorem negative_host_read_aborts_witness :
    (emscriptenhttp_stream_read envAbort streamUp 4).retval = -1 ∧
    (emscriptenhttp_stream_read envAbort streamUp 4).bytesRead = none ∧
    (emscriptenhttp_stream_read envAbort streamUp 4).errorSet =
      some "request aborted by user" :=
  ⟨(negative_host_read_aborts envAbort streamUp 4 (by decide)).1,
   (negative_host_read_aborts envAbort streamUp 4 (by decide)).2.1,
   (negative_host_read_aborts envAbort streamUp 4 (by decide)).2.2.1⟩

/-- Claim C5: when the host read primitive returns a non-negative count (and
honours the capacity bound it was given), the read succeeds, reports exactly
that count through `bytes_read`, the count never exceeds the capacity, and a
zero host count surfaces as a zero-byte read. -/
theorem nonnegative_host_read_succeeds (e : HostEnv) (s : emscriptenhttp_stream) (n : Nat)
    (h0 : 0 ≤ e.doRead (effectiveConn e s) n)
    (h1 : e.doRead (effectiveConn e s) n ≤ (n : Int)) :
    (emscriptenhttp_stream_read e s n).retval = 0 ∧
    (emscriptenhttp_stream_read e s n).bytesRead =
      some (e.doRead (effectiveConn e s) n).toNat ∧
    (e.doRead (effectiveConn e s) n).toNat ≤ n ∧
    (e.doRead (effectiveConn e s) n = 0 →
      (emscriptenhttp_stream_read e s n).bytesRead = some 0) := by
  obtain ⟨hr, hb, -⟩ := stream_read_result e s n
  have hlt : ¬e.doRead (effectiveConn e s) n < 0 := not_lt.2 h0
  rw [hr, hb, if_neg hlt, if_neg hlt]
  refine ⟨rfl, rfl, Int.toNat_le.2 h1, ?_⟩
  intro hz
  rw [hz]
  rfl

/-- Witness for C5: a concrete host read delivering 3 bytes into a 4-byte
buffer. -/
theorem nonnegative_host_read_succeeds_witness :
    (emscriptenhttp_stream_read envOk streamUp 4).retval = 0 ∧
    (emscriptenhttp_stream_read envOk streamUp 4).bytesRead = some 3 ∧
    (3 : Nat) ≤ 4 :=
  ⟨(nonnegative_host_read_succeeds envOk streamUp 4 (by decide) (by decide)).1,
   (nonnegative_host_read_succeeds envOk streamUp 4 (by decide) (by decide)).2.1,
   (nonnegative_host_read_succeeds envOk streamUp 4 (by decide) (by decide)).2.2.1⟩

/-- Claim C6: every write returns the success status `0`, sets no error, and
its outcome is entirely independent of the host write primitive's return
value (fire-and-forget). -/
theorem write_always_succeeds (e : HostEnv) (s : emscriptenhttp_stream) (len : Nat)
    (v : Int → Nat → Int) :
    (emscriptenhttp_stream_write_single e s len).retval = 0 ∧
    (emscriptenhttp_stream_write_single e s len).errorSet = none ∧
    emscriptenhttp_stream_write_single e s len =
      emscriptenhttp_stream_write_single { e with doWrite := v } s len :=
  ⟨rfl, rfl, rfl⟩

/-- Claim C7: the subtransport's `close` is a no-op returning success and
leaving the state unchanged with no host calls, and `free` performs exactly
the close (contributing nothing) followed by the memory release. -/
theorem subtransport_close_noop_free_releases (t : emscriptenhttp_subtransport) :
    (emscriptenhttp_close t).1 = 0 ∧
    (emscriptenhttp_close t).2.1 = t ∧
    (emscriptenhttp_close t).2.2 = [] ∧
    emscriptenhttp_free t = [HostCall.freeMem "emscriptenhttp_subtransport"] :=
  ⟨rfl, rfl, rfl, rfl⟩

/-- Claim C8: freeing a stream performs exactly the memory release and no
host-primitive call, whatever the stream's state (in particular even when its
connection is open). -/
theorem stream_free_no_host_primitive (s : emscriptenhttp_stream) :
    emscriptenhttp_stream_free s = [HostCall.freeMem "emscriptenhttp_stream"] ∧
    ∀ c ∈ emscriptenhttp_stream_free s, isHostPrimitive c = false := by
  refine ⟨rfl, ?_⟩
  intro c hc
  rcases List.mem_singleton.1 hc with rfl
  rfl

/-- Claim C10: an action value outside the four known Git smart services
still succeeds, yielding a fresh unopened stream whose service URL is the
empty string. -/
theorem unknown_action_empty_url (url : String) (action : Nat)
    (h1 : action ≠ GIT_SERVICE_UPLOADPACK_LS) (h2 : action ≠ GIT_SERVICE_UPLOADPACK)
    (h3 : action ≠ GIT_SERVICE_RECEIVEPACK_LS) (h4 : action ≠ GIT_SERVICE_RECEIVEPACK) :
    (emscriptenhttp_action url action).1 = 0 ∧
    (emscriptenhttp_action url action).2.service_url = "" ∧
    (emscriptenhttp_action url action).2.connectionNo = -1 := by
  unfold emscriptenhttp_action emscriptenhttp_stream_alloc
  rw [if_neg h1, if_neg h2, if_neg h3, if_neg h4]
  exact ⟨rfl, rfl, rfl⟩

/-- Witness for C10: the out-of-range action value `7`. -/
theorem unknown_action_empty_url_witness :
    (emscriptenhttp_action "http://h/repo" 7).1 = 0 ∧
    (emscriptenhttp_action "http://h/repo" 7).2.service_url = "" ∧
    (emscriptenhttp_action "http://h/repo" 7).2.connectionNo = -1 :=
  unknown_action_empty_url "http://h/repo" 7 (by decide) (by decide) (by decide) (by decide)

theorem isGetCall_eq_false_of_not_open {c : HostCall} (h : isOpenCall c = false) :
    isGetCall c = false := by
  cases c <;> simp_all [isOpenCall, isGetCall]

theorem isPostCall_eq_false_of_not_open {c : HostCall} (h : isOpenCall c = false) :
    isPostCall c = false := by
  cases c <;> simp_all [isOpenCall, isPostCall]

/-- Claim C3: starting from an unopened stream, any nonempty sequence of
reads and writes invokes a connection-opening host call exactly once, and it
happens on the very first operation (provided the host hands back handles
distinct from the `-1` sentinel, as a handle-returning primitive does). -/
theorem connection_opened_exactly_once (e : HostEnv) (s : emscriptenhttp_stream)
    (op : Op) (ops : List Op)
    (hG : e.doGet s.service_url DEFAULT_BUFSIZE ≠ -1)
    (hP : e.doPost s.service_url DEFAULT_BUFSIZE ≠ -1)
    (h : s.connectionNo = -1) :
    (runOps e s (op :: ops)).2.countP isOpenCall = 1 ∧
    ((runOps e s (op :: ops)).2.head?).map isOpenCall = some true := by
  cases op with
  | read n =>
    rcases stream_read_of_sentinel e s n h with ⟨hs, hc⟩
    have hconn : (emscriptenhttp_stream_read e s n).stream.connectionNo ≠ -1 := by
      rw [hs]; exact hG
    obtain ⟨-, h2⟩ := runOps_steady e ops _ hconn
    rw [runOps_cons_read]
    dsimp only
    rw [hc]
    have h0 : (runOps e (emscriptenhttp_stream_read e s n).stream ops).2.countP isOpenCall = 0 := by
      rw [List.countP_eq_zero]
      intro c hc'
      simp [(h2 c hc').1]
    constructor
    · rw [List.countP_append, h0]
      rfl
    · rfl
  | write n =>
    rcases stream_write_of_sentinel e s n h with ⟨hs, hc⟩
    have hconn : (emscriptenhttp_stream_write_single e s n).stream.connectionNo ≠ -1 := by
      rw [hs]; exact hP
    obtain ⟨-, h2⟩ := runOps_steady e ops _ hconn
    rw [runOps_cons_write]
    dsimp only
    rw [hc]
    have h0 : (runOps e (emscriptenhttp_stream_write_single e s n).stream ops).2.countP isOpenCall = 0 := by
      rw [List.countP_eq_zero]
      intro c hc'
      simp [(h2 c hc').1]
    constructor
    · rw [List.countP_append, h0]
      rfl
    · rfl

/-- Witness for C3: a concrete unopened stream run through a read followed by
a write opens exactly one connection, on the first call. -/
theorem connection_opened_exactly_once_witness :
    (runOps envOk streamUp [Op.read 4, Op.write 2]).2.countP isOpenCall = 1 ∧
    ((runOps envOk streamUp [Op.read 4, Op.write 2]).2.head?).map isOpenCall = some true :=
  connection_opened_exactly_once envOk streamUp (Op.read 4) [Op.write 2]
    (by decide) (by decide) rfl

/-- Claim C9: the method of the single connection-opening call is decided by
the first operation (GET for a read, POST for a write); once opened, no later
operation of either kind opens with the other method, and every byte-level
host call in the whole run reuses the handle obtained by that first open. -/
theorem later_ops_reuse_first_connection (e : HostEnv) (s : emscriptenhttp_stream)
    (op : Op) (ops : List Op)
    (hG : e.doGet s.service_url DEFAULT_BUFSIZE ≠ -1)
    (hP : e.doPost s.service_url DEFAULT_BUFSIZE ≠ -1)
    (h : s.connectionNo = -1) :
    (runOps e s (op :: ops)).2.countP isGetCall = (if isReadOp op then 1 else 0) ∧
    (runOps e s (op :: ops)).2.countP isPostCall = (if isReadOp op then 0 else 1) ∧
    ∀ c ∈ (runOps e s (op :: ops)).2, ∀ k : Int, callConn c = some k →
      k = firstHandle e s op := by
  cases op with
  | read n =>
    rcases stream_read_of_sentinel e s n h with ⟨hs, hc⟩
    have hconn : (emscriptenhttp_stream_read e s n).stream.connectionNo ≠ -1 := by
      rw [hs]; exact hG
    obtain ⟨-, h2⟩ := runOps_steady e ops _ hconn
    rw [runOps_cons_read]
    dsimp only
    rw [hc]
    refine ⟨?_, ?_, ?_⟩
    · rw [List.countP_append]
      have h0 : (runOps e (emscriptenhttp_stream_read e s n).stream ops).2.countP isGetCall = 0 := by
        rw [List.countP_eq_zero]
        intro c hc'
        simp [isGetCall_eq_false_of_not_open (h2 c hc').1]
      rw [h0]
      rfl
    · rw [List.countP_append]
      have h0 : (runOps e (emscriptenhttp_stream_read e s n).stream ops).2.countP isPostCall = 0 := by
        rw [List.countP_eq_zero]
        intro c hc'
        simp [isPostCall_eq_false_of_not_open (h2 c hc').1]
      rw [h0]
      rfl
    · intro c hmem k hk
      rcases List.mem_append.1 hmem with hm | hm
      · rcases hm with _ | ⟨_, hm⟩
        · cases hk
        · rcases List.mem_singleton.1 hm with rfl
          cases hk
          rfl
      · have hcc := (h2 c hm).2
        rw [hk] at hcc
        have hkk : k = (emscriptenhttp_stream_read e s n).stream.connectionNo :=
          Option.some.inj hcc
        rw [hkk, hs]
        rfl
  | write n =>
    rcases stream_write_of_sentinel e s n h with ⟨hs, hc⟩
    have hconn : (emscriptenhttp_stream_write_single e s n).stream.connectionNo ≠ -1 := by
      rw [hs]; exact hP
    obtain ⟨-, h2⟩ := runOps_steady e ops _ hconn
    rw [runOps_cons_write]
    dsimp only
    rw [hc]
    refine ⟨?_, ?_, ?_⟩
    · rw [List.countP_append]
      have h0 : (runOps e (emscriptenhttp_stream_write_single e s n).stream ops).2.countP isGetCall = 0 := by
        rw [List.countP_eq_zero]
        intro c hc'
        simp [isGetCall_eq_false_of_not_open (h2 c hc').1]
      rw [h0]
      rfl
    · rw [List.countP_append]
      have h0 : (runOps e (emscriptenhttp_stream_write_single e s n).stream ops).2.countP isPostCall = 0 := by
        rw [List.countP_eq_zero]
        intro c hc'
        simp [isPostCall_eq_false_of_not_open (h2 c hc').1]
      rw [h0]
      rfl
    · intro c hmem k hk
      rcases List.mem_append.1 hmem with hm | hm
      · rcases hm with _ | ⟨_, hm⟩
        · cases hk
        · rcases List.mem_singleton.1 hm with rfl
          cases hk
          rfl
      · have hcc := (h2 c hm).2
        rw [hk] at hcc
        have hkk : k = (emscriptenhttp_stream_write_single e s n).stream.connectionNo :=
          Option.some.inj hcc
        rw [hkk, hs]
        rfl

/-- Witness for C9: with a read first, the run performs one GET and no POST. -/
theorem later_ops_reuse_first_connection_witness :
    (runOps envOk streamUp [Op.read 4, Op.write 2, Op.read 8]).2.countP isGetCall = 1 ∧
    (runOps envOk streamUp [Op.read 4, Op.write 2, Op.read 8]).2.countP isPostCall = 0 :=
  ⟨(later_ops_reuse_first_connection envOk streamUp (Op.read 4) [Op.write 2, Op.read 8]
      (by decide) (by decide) rfl).1,
   (later_ops_reuse_first_connection envOk streamUp (Op.read 4) [Op.write 2, Op.read 8]
      (by decide) (by decide) rfl).2.1⟩

theorem jsIndexOfAux_of_pref (pat s : List Char) (i : Nat)
    (hp : pat.isPrefixOf s = true) : jsIndexOfAux pat s i = (i : Int) := by
  cases s <;> unfold jsIndexOfAux <;> rw [if_pos hp]

theorem jsIndexOfAux_bound (pat : List Char) :
    ∀ (s : List Char) (i : Nat),
      jsIndexOfAux pat s i = -1 ∨ (i : Int) ≤ jsIndexOfAux pat s i := by
  intro s
  induction s with
  | nil =>
    intro i
    unfold jsIndexOfAux
    split
    · exact Or.inr (le_refl _)
    · exact Or.inl rfl
  | cons c rest ih =>
    intro i
    unfold jsIndexOfAux
    split
    · exact Or.inr (le_refl _)
    · rcases ih (i + 1) with h | h
      · exact Or.inl h
      · refine Or.inr (le_trans ?_ h)
        exact_mod_cast Nat.le_succ i

theorem jsIndexOfAux_ne_neg_one_iff (pat : List Char) :
    ∀ (s : List Char) (i : Nat),
      jsIndexOfAux pat s i ≠ -1 ↔ ∃ a b, s = a ++ pat ++ b := by
  intro s
  induction s with
  | nil =>
    intro i
    unfold jsIndexOfAux
    by_cases hp : pat.isPrefixOf [] = true
    · rw [if_pos hp]
      have hpat : pat = [] := List.prefix_nil.1 (List.isPrefixOf_iff_prefix.1 hp)
      subst hpat
      constructor
      · intro _; exact ⟨[], [], rfl⟩
      · intro _
        intro hcontra
        omega
    · rw [if_neg hp]
      constructor
      · intro hcontra; exact absurd rfl hcontra
      · rintro ⟨a, b, hab⟩
        exfalso
        have hpat : pat = [] := by
          cases pat with
          | nil => rfl
          | cons x xs =>
            have hlen := congrArg List.length hab
            simp [List.length_append] at hlen
            omega
        subst hpat
        exact hp rfl
  | cons c rest ih =>
    intro i
    unfold jsIndexOfAux
    by_cases hp : pat.isPrefixOf (c :: rest) = true
    · rw [if_pos hp]
      constructor
      · intro _
        obtain ⟨t, ht⟩ : pat <+: c :: rest := List.isPrefixOf_iff_prefix.1 hp
        exact ⟨[], t, by rw [List.nil_append, ht]⟩
      · intro _
        intro hcontra
        omega
    · rw [if_neg hp]
      rw [ih (i + 1)]
      constructor
      · rintro ⟨a, b, hab⟩
        exact ⟨c :: a, b, by rw [List.cons_append, List.cons_append, hab]⟩
      · rintro ⟨a, b, hab⟩
        cases a with
        | nil =>
          exfalso
          apply hp
          rw [List.nil_append] at hab
          exact List.isPrefixOf_iff_prefix.2 ⟨b, hab.symm⟩
        | cons c' a' =>
          rw [List.cons_append, List.cons_append] at hab
          injection hab with h1 h2
          exact ⟨a', b, h2⟩

/-- The JS test `u.indexOf(pat) > 0` holds exactly when `pat` occurs in `u`
somewhere other than at the very start: it occurs, and `u` does not begin
with it. -/
theorem jsIndexOfAux_zero_pos_iff (pat u : List Char) :
    0 < jsIndexOfAux pat u 0 ↔
      ((∃ a b, u = a ++ pat ++ b) ∧ ¬ ∃ b, u = pat ++ b) := by
  by_cases hp : pat.isPrefixOf u = true
  · rw [jsIndexOfAux_of_pref pat u 0 hp]
    constructor
    · intro hlt
      exact absurd hlt (by decide)
    · rintro ⟨-, hnp⟩
      exfalso
      obtain ⟨t, ht⟩ := List.isPrefixOf_iff_prefix.1 hp
      exact hnp ⟨t, ht.symm⟩
  · cases u with
    | nil =>
      have h1 : jsIndexOfAux pat [] 0 = -1 := by
        unfold jsIndexOfAux
        rw [if_neg hp]
      rw [h1]
      constructor
      · intro hlt
        exact absurd hlt (by decide)
      · rintro ⟨⟨a, b, hab⟩, -⟩
        exfalso
        have hpat : pat = [] := by
          cases pat with
          | nil => rfl
          | cons x xs =>
            have hlen := congrArg List.length hab
            simp [List.length_append] at hlen
            omega
        subst hpat
        exact hp rfl
    | cons c rest =>
      have hstep : jsIndexOfAux pat (c :: rest) 0 = jsIndexOfAux pat rest 1 := by
        conv_lhs => rw [jsIndexOfAux]
        rw [if_neg hp]
      rw [hstep]
      constructor
      · intro hlt
        have hne : jsIndexOfAux pat rest 1 ≠ -1 := by
          intro hx
          rw [hx] at hlt
          exact absurd hlt (by decide)
        obtain ⟨a, b, hab⟩ := (jsIndexOfAux_ne_neg_one_iff pat rest 1).1 hne
        refine ⟨⟨c :: a, b, by rw [List.cons_append, List.cons_append, hab]⟩, ?_⟩
        rintro ⟨b', hb'⟩
        exact hp (List.isPrefixOf_iff_prefix.2 ⟨b', hb'.symm⟩)
      · rintro ⟨⟨a, b, hab⟩, hnp⟩
        have hocc : ∃ a' b', rest = a' ++ pat ++ b' := by
          cases a with
          | nil =>
            exfalso
            rw [List.nil_append] at hab
            exact hnp ⟨b, hab⟩
          | cons c' a' =>
            rw [List.cons_append, List.cons_append] at hab
            injection hab with h1 h2
            exact ⟨a', b, h2⟩
        have hne : jsIndexOfAux pat rest 1 ≠ -1 :=
          (jsIndexOfAux_ne_neg_one_iff pat rest 1).2 hocc
        rcases jsIndexOfAux_bound pat rest 1 with hb1 | hb1
        · exact absurd hb1 hne
        · omega

/-- Claim C4 (amended): for a stream whose first operation is a write, a POST
connection is opened whose Content-Type is
`application/x-git-upload-pack-request` exactly when `git-upload-pack` occurs
in the resolved service URL at a position strictly after its start (it occurs
somewhere, and the URL does not begin with it), and
`application/x-git-receive-pack-request` otherwise. -/
theorem post_content_type_follows_url (e : HostEnv) (s : emscriptenhttp_stream)
    (len : Nat) (h : s.connectionNo = -1) :
    ((emscriptenhttp_stream_write_single e s len).calls.head? =
      some (HostCall.post s.service_url DEFAULT_BUFSIZE
        "application/x-git-upload-pack-request") ↔
      ((∃ a b, s.service_url.data = a ++ "git-upload-pack".data ++ b) ∧
        ¬ ∃ b, s.service_url.data = "git-upload-pack".data ++ b)) ∧
    ((emscriptenhttp_stream_write_single e s len).calls.head? =
      some (HostCall.post s.service_url DEFAULT_BUFSIZE
        "application/x-git-receive-pack-request") ↔
      ¬((∃ a b, s.service_url.data = a ++ "git-upload-pack".data ++ b) ∧
        ¬ ∃ b, s.service_url.data = "git-upload-pack".data ++ b)) := by
  rcases stream_write_of_sentinel e s len h with ⟨-, hc⟩
  rw [hc]
  simp only [List.head?_cons, Option.some.injEq, HostCall.post.injEq, true_and]
  have hiff := jsIndexOfAux_zero_pos_iff "git-upload-pack".data s.service_url.data
  by_cases hcond : 0 < jsIndexOf s.service_url "git-upload-pack"
  · rw [if_pos hcond]
    constructor
    · exact ⟨fun _ => hiff.1 hcond, fun _ => rfl⟩
    · constructor
      · intro hh
        exact absurd hh (by decide)
      · intro hn
        exact absurd (hiff.1 hcond) hn
  · rw [if_neg hcond]
    constructor
    · constructor
      · intro hh
        exact absurd hh (by decide)
      · intro hrhs
        exact absurd (hiff.2 hrhs) hcond
    · exact ⟨fun _ hrhs => hcond (hiff.2 hrhs), fun _ => rfl⟩

/-- Witness for C4 (amended): on a URL mentioning `git-upload-pack` past its
start, the first write opens a POST with the upload-pack content type. -/
theorem post_content_type_follows_url_witness :
    (emscriptenhttp_stream_write_single envOk streamUp 3).calls.head? =
      some (HostCall.post streamUp.service_url DEFAULT_BUFSIZE
        "application/x-git-upload-pack-request") :=
  (post_content_type_follows_url envOk streamUp 3 rfl).1.mpr
    ((jsIndexOfAux_zero_pos_iff "git-upload-pack".data streamUp.service_url.data).1
      (by decide))

/-- Counterexample to claim C4 as stated: take the base URL
`git-upload-pack` with the upload-pack action.  The resolved service URL
`git-upload-pack/git-upload-pack` mentions `git-upload-pack` (first conjunct
exhibits an occurrence, at its very start), yet the POST opened by the first
write carries the receive-pack content type, because the JS test is
`indexOf(...) > 0`, not `>= 0`. -/
theorem post_content_type_counterexample :
    (emscriptenhttp_action "git-upload-pack" GIT_SERVICE_UPLOADPACK).2.service_url.data =
      [] ++ "git-upload-pack".data ++ "/git-upload-pack".data ∧
    (emscriptenhttp_stream_write_single envOk
        (emscriptenhttp_action "git-upload-pack" GIT_SERVICE_UPLOADPACK).2 5).calls.head? =
      some (HostCall.post "git-upload-pack/git-upload-pack" DEFAULT_BUFSIZE
        "application/x-git-receive-pack-request") := by
  constructor
  · decide
  · decide

/-- Witness for C1: the four service URLs at a concrete base URL. -/
theorem action_builds_exact_service_urls_witness :
    (emscriptenhttp_action "http://h/repo" GIT_SERVICE_UPLOADPACK_LS).2.service_url =
      "http://h/repo" ++ "/info/refs?service=git-upload-pack" ∧
    (emscriptenhttp_action "http://h/repo" GIT_SERVICE_UPLOADPACK).2.service_url =
      "http://h/repo" ++ "/git-upload-pack" ∧
    (emscriptenhttp_action "http://h/repo" GIT_SERVICE_RECEIVEPACK_LS).2.service_url =
      "http://h/repo" ++ "/info/refs?service=git-receive-pack" ∧
    (emscriptenhttp_action "http://h/repo" GIT_SERVICE_RECEIVEPACK).2.service_url =
      "http://h/repo" ++ "/git-receive-pack" :=
  ⟨(action_builds_exact_service_urls "http://h/repo").2.1,
   (action_builds_exact_service_urls "http://h/repo").2.2.2.1,
   (action_builds_exact_service_urls "http://h/repo").2.2.2.2.2.1,
   (action_builds_exact_service_urls "http://h/repo").2.2.2.2.2.2.2⟩

/-- Witness for C6: a concrete write succeeds whatever the host write
primitive would return. -/
theorem write_always_succeeds_witness :
    (emscriptenhttp_stream_write_single envOk streamUp 3).retval = 0 ∧
    (emscriptenhttp_stream_write_single envOk streamUp 3).errorSet = none :=
  ⟨(write_always_succeeds envOk streamUp 3 (fun _ _ => 9)).1,
   (write_always_succeeds envOk streamUp 3 (fun _ _ => 9)).2.1⟩

/-- Witness for C7: close and free on a concrete subtransport. -/
theorem subtransport_close_noop_free_releases_witness :
    (emscriptenhttp_close ⟨0⟩).1 = 0 ∧
    emscriptenhttp_free ⟨0⟩ = [HostCall.freeMem "emscriptenhttp_subtransport"] :=
  ⟨(subtransport_close_noop_free_releases ⟨0⟩).1,
   (subtransport_close_noop_free_releases ⟨0⟩).2.2.2⟩

/-- Witness for C8: freeing a concrete opened stream performs only the
memory release. -/
theorem stream_free_no_host_primitive_witness :
    emscriptenhttp_stream_free { service_url := "u", connectionNo := 5 } =
      [HostCall.freeMem "emscriptenhttp_stream"] :=
  (stream_free_no_host_primitive { service_url := "u", connectionNo := 5 }).1
